import Mathlib

/-!
Shallow embedding of `Source/Element/Element.Dimensions.js` (MooTools core):
element size, scroll and position methods. Each definition mirrors one
method of `Element.implement({...})`, with host-provided DOM attributes
modelled as fields of an element record (`ElemData`), the `offsetParent`
chain modelled structurally (so it is finite and acyclic, the well-formed
layout tree of the spec), and JavaScript's `v || 0` default on possibly
absent numeric attributes modelled as `Option Int` with `.getD 0`.
-/

namespace ElementDimensions

/-- A point record as returned by getPosition: `{'x': left, 'y': top}`. -/
structure Point where
  x : Int
  y : Int
deriving DecidableEq, Repr

/-- The record returned by getScroll: raw reads of `scrollLeft` and
`scrollTop`, which the host may leave absent on some node kinds. -/
structure Scroll where
  x : Option Int
  y : Option Int
deriving DecidableEq, Repr

/-- The record returned by getCoordinates. -/
structure Coordinates where
  top : Int
  left : Int
  width : Int
  height : Int
  right : Int
  bottom : Int
deriving DecidableEq, Repr

/-- The record returned by getSize: client, offset and scroll size pairs. -/
structure Size where
  client : Point
  offset : Point
  scroll : Point
deriving DecidableEq, Repr

/-- Host-provided numeric attributes of a DOM element. `offsetLeft`,
`offsetTop`, `scrollLeft` and `scrollTop` may be absent (the code defaults
them to 0 with `|| 0` where it reads them inside getPosition). -/
structure ElemData where
  offsetLeft : Option Int
  offsetTop : Option Int
  scrollLeft : Option Int
  scrollTop : Option Int
  clientWidth : Int
  clientHeight : Int
  offsetWidth : Int
  offsetHeight : Int
  scrollWidth : Int
  scrollHeight : Int
deriving DecidableEq, Repr

/-- A DOM element: its own attributes together with its `offsetParent`
chain. The chain is part of the structure, hence finite and acyclic. -/
inductive Elem : Type where
  | mk (data : ElemData) (offsetParent : Option Elem) : Elem

/-- Boolean equality on elements (structural, down the parent chain). -/
def Elem.beq : Elem → Elem → Bool
  | .mk d p, .mk e q =>
    decide (d = e) &&
      match p, q with
      | none, none => true
      | some a, some b => Elem.beq a b
      | _, _ => false

/-- `Elem.beq` decides structural equality. -/
theorem Elem.beq_iff : ∀ (a b : Elem), Elem.beq a b = true ↔ a = b
  | .mk d none, .mk e none => by simp [Elem.beq]
  | .mk d none, .mk e (some b) => by simp [Elem.beq]
  | .mk d (some a), .mk e none => by simp [Elem.beq]
  | .mk d (some a), .mk e (some b) => by
    have ih := Elem.beq_iff a b
    simp [Elem.beq, ih]

instance : DecidableEq Elem :=
  fun a b => decidable_of_iff _ (Elem.beq_iff a b)

/-- The element's own attribute record. -/
def Elem.data : Elem → ElemData
  | .mk d _ => d

/-- The element's `offsetParent` reference (absent at the chain's end). -/
def Elem.offsetParent : Elem → Option Elem
  | .mk _ p => p

/-- scrollTo: `this.scrollLeft = x; this.scrollTop = y;` — the single
mutation of host state in the file, returned as the updated element. -/
def Elem.scrollTo (el : Elem) (x y : Int) : Elem :=
  Elem.mk { el.data with scrollLeft := some x, scrollTop := some y } el.offsetParent

/-- getScroll: `{'x': this.scrollLeft, 'y': this.scrollTop}`. -/
def Elem.getScroll (el : Elem) : Scroll :=
  { x := el.data.scrollLeft, y := el.data.scrollTop }

/-- getSize: the three host size pairs, read directly. -/
def Elem.getSize (el : Elem) : Size :=
  { client := ⟨el.data.clientWidth, el.data.clientHeight⟩
    offset := ⟨el.data.offsetWidth, el.data.offsetHeight⟩
    scroll := ⟨el.data.scrollWidth, el.data.scrollHeight⟩ }

/-- The `overflown` argument as the JavaScript method receives it: absent,
a single element, or an array of elements. -/
inductive Overflown : Type where
  | absent : Overflown
  | single (el : Elem) : Overflown
  | array (els : List Elem) : Overflown

/-- `$splat` from MooTools core, at the types getPosition uses it:
an absent value becomes the empty array, an array is returned as is,
and any other value is wrapped into a one-element array. -/
def splat : Overflown → List Elem
  | .absent => []
  | .single el => [el]
  | .array els => els

/-- The do/while loop of getPosition: add `el.offsetLeft || 0` to `left`
and `el.offsetTop || 0` to `top`, advance `el` to `el.offsetParent`, and
stop once the parent is absent. -/
def posLoop : Elem → Int → Int → Int × Int
  | .mk d p, left, top =>
    let left := left + d.offsetLeft.getD 0
    let top := top + d.offsetTop.getD 0
    match p with
    | none => (left, top)
    | some parent => posLoop parent left top

/-- getPosition: splat the `overflown` argument, walk the offsetParent
chain accumulating offsets, then subtract `scrollLeft || 0` and
`scrollTop || 0` of each overflown container, in order. -/
def Elem.getPosition (el : Elem) (overflown : Overflown) : Point :=
  let ov := splat overflown
  let lt := posLoop el 0 0
  let fin := ov.foldl
    (fun acc element =>
      (acc.1 - element.data.scrollLeft.getD 0, acc.2 - element.data.scrollTop.getD 0)) lt
  { x := fin.1, y := fin.2 }

/-- getTop: `this.getPosition(overflown).y`. -/
def Elem.getTop (el : Elem) (overflown : Overflown) : Int :=
  (el.getPosition overflown).y

/-- getLeft: `this.getPosition(overflown).x`. -/
def Elem.getLeft (el : Elem) (overflown : Overflown) : Int :=
  (el.getPosition overflown).x

/-- getCoordinates: position plus the element's own offsetWidth and
offsetHeight, with `right = left + width` and `bottom = top + height`
computed from the record just built. -/
def Elem.getCoordinates (el : Elem) (overflown : Overflown) : Coordinates :=
  let position := el.getPosition overflown
  let top := position.y
  let left := position.x
  let width := el.data.offsetWidth
  let height := el.data.offsetHeight
  { top := top, left := left, width := width, height := height,
    right := left + width, bottom := top + height }

/-- Outcome of invoking a method through a possibly absent handle. -/
inductive JSOutcome (α : Type) where
  | ok (v : α)
  | hostFault
  | invalidArgument
deriving DecidableEq, Repr

/-- Invoking `handle.getPosition(overflown)` through a possibly absent
element handle, as the host evaluates it: an absent handle faults at the
property access before the method body runs, and the body itself contains
no argument validation and raises no error of its own. -/
def getPositionOn : Option Elem → Overflown → JSOutcome Point
  | none, _ => .hostFault
  | some el, ov => .ok (el.getPosition ov)

/-- getPosition with the host element state threaded through explicitly:
every statement of the body reads a host attribute or assigns one of the
local variables `left`, `top`, `el`; none assigns a host attribute, so the
state component returned is the state passed in. -/
def Elem.getPositionTrace (el : Elem) (overflown : Overflown) : Point × Elem :=
  (el.getPosition overflown, el)

/-- The attribute pairs getPosition reads along the offsetParent chain:
its observation of the layout tree. -/
def Elem.chainObs : Elem → List (Option Int × Option Int)
  | .mk d none => [(d.offsetLeft, d.offsetTop)]
  | .mk d (some p) => (d.offsetLeft, d.offsetTop) :: p.chainObs

/-- Sum of `offsetLeft || 0` over the element and its ancestors. -/
def sumLeft (e : Elem) : Int :=
  (e.chainObs.map (fun o => o.1.getD 0)).sum

/-- Sum of `offsetTop || 0` over the element and its ancestors. -/
def sumTop (e : Elem) : Int :=
  (e.chainObs.map (fun o => o.2.getD 0)).sum

/-- Sum of `scrollLeft || 0` over a list of scroll containers. -/
def sumScrollX (cs : List Elem) : Int :=
  (cs.map (fun c => c.data.scrollLeft.getD 0)).sum

/-- Sum of `scrollTop || 0` over a list of scroll containers. -/
def sumScrollY (cs : List Elem) : Int :=
  (cs.map (fun c => c.data.scrollTop.getD 0)).sum

/-- Length of the offsetParent chain above the element. -/
def Elem.depth : Elem → Nat
  | .mk _ none => 0
  | .mk _ (some p) => p.depth + 1

/-- The do/while loop of getPosition as an explicit small-step iteration
with a fuel bound: each step runs one loop body; `none` means the fuel ran
out before the chain ended. -/
def posStep : Nat → Elem → Int → Int → Option (Int × Int)
  | fuel, .mk d p, left, top =>
    let left := left + d.offsetLeft.getD 0
    let top := top + d.offsetTop.getD 0
    match p with
    | none => some (left, top)
    | some parent =>
      match fuel with
      | 0 => none
      | fuel + 1 => posStep fuel parent left top

/-- An attribute record with the given offsets and scroll values and all
sizes zero, for building concrete test trees. -/
def mkData (ol ot sx sy : Option Int) : ElemData :=
  { offsetLeft := ol, offsetTop := ot, scrollLeft := sx, scrollTop := sy,
    clientWidth := 0, clientHeight := 0, offsetWidth := 0, offsetHeight := 0,
    scrollWidth := 0, scrollHeight := 0 }

/-- Outermost ancestor of the three-level test chain: local offsets (0, 15). -/
def exGrand : Elem := .mk (mkData (some 0) (some 15) none none) none

/-- Middle ancestor of the three-level test chain: local offsets (20, 0). -/
def exParent : Elem := .mk (mkData (some 20) (some 0) none none) (some exGrand)

/-- Innermost node of the three-level test chain: local offsets (10, 5). -/
def exNode : Elem := .mk (mkData (some 10) (some 5) none none) (some exParent)

/-- A root node (no offsetParent) with local offsets (7, 9). -/
def exRoot : Elem := .mk (mkData (some 7) (some 9) none none) none

/-- A root node with the same offsets as `exRoot` but different scroll
state: getPosition observes the two trees identically. -/
def exRoot2 : Elem := .mk (mkData (some 7) (some 9) (some 3) (some 4)) none

/-- A scroll container scrolled to (5, 5). -/
def exScroller : Elem := .mk (mkData none none (some 5) (some 5)) none

/-- The chain walk accumulates exactly the chain's offset sums on top of
the accumulator it starts from. -/
theorem posLoop_spec : ∀ (e : Elem) (l t : Int),
    posLoop e l t = (l + sumLeft e, t + sumTop e)
  | .mk d none, l, t => by
    simp [posLoop, sumLeft, sumTop, Elem.chainObs]
  | .mk d (some p), l, t => by
    have ih := posLoop_spec p (l + d.offsetLeft.getD 0) (t + d.offsetTop.getD 0)
    simp only [posLoop, ih, sumLeft, sumTop, Elem.chainObs, List.map_cons, List.sum_cons,
      Prod.mk.injEq]
    constructor <;> ring

/-- The container fold subtracts exactly the scroll sums of the list. -/
theorem foldl_scroll_spec : ∀ (cs : List Elem) (l t : Int),
    cs.foldl
      (fun acc element =>
        (acc.1 - element.data.scrollLeft.getD 0, acc.2 - element.data.scrollTop.getD 0))
      (l, t)
    = (l - sumScrollX cs, t - sumScrollY cs)
  | [], l, t => by
    simp [sumScrollX, sumScrollY]
  | c :: cs, l, t => by
    have ih := foldl_scroll_spec cs (l - c.data.scrollLeft.getD 0) (t - c.data.scrollTop.getD 0)
    simp only [List.foldl_cons, ih, sumScrollX, sumScrollY, List.map_cons, List.sum_cons,
      Prod.mk.injEq]
    constructor <;> ring

/-- Closed form of getPosition: offset sums of the chain minus scroll sums
of the splatted container list. -/
theorem getPosition_spec (e : Elem) (ov : Overflown) :
    e.getPosition ov
      = ⟨sumLeft e - sumScrollX (splat ov), sumTop e - sumScrollY (splat ov)⟩ := by
  have hloop := posLoop_spec e 0 0
  simp only [Elem.getPosition, hloop, zero_add, foldl_scroll_spec]

/-- C1: getPosition returns the point whose x is the sum of offsetLeft
(absent treated as 0) over the node and all its offsetParent ancestors
minus the sum of scrollLeft (absent treated as 0) over the given
containers, and whose y is the analogous sum of offsetTop minus the sum of
scrollTop; in particular the three-level test chain with local offsets
(10,5), (20,0), (0,15) yields {x: 30, y: 20} with an empty container
list. -/
theorem getPosition_sum_formula :
    (∀ (e : Elem) (cs : List Elem),
        e.getPosition (Overflown.array cs)
          = ⟨sumLeft e - sumScrollX cs, sumTop e - sumScrollY cs⟩)
    ∧ exNode.getPosition (Overflown.array []) = ⟨30, 20⟩ := by
  constructor
  · intro e cs
    exact getPosition_spec e (Overflown.array cs)
  · decide

/-- C2 counterexample: calling getPosition through an absent node handle
does not produce an InvalidArgument error — the method body contains no
validation at all; the host faults at the property access instead. -/
theorem getPositionOn_absent_not_invalidArgument :
    getPositionOn none Overflown.absent ≠ JSOutcome.invalidArgument := by
  decide

/-- C2 amended: with an absent node handle the call fails (the host faults
dereferencing the handle before the method body runs) rather than
returning the point {x: 0, y: 0}, but the failure is a host-level fault,
not an InvalidArgument error raised by the code, which performs no
validation. -/
theorem getPositionOn_absent_hostFault (ov : Overflown) :
    getPositionOn none ov = JSOutcome.hostFault
      ∧ getPositionOn none ov ≠ JSOutcome.ok ⟨0, 0⟩ :=
  ⟨rfl, by simp [getPositionOn]⟩

/-- C3: every bounding box returned by getCoordinates satisfies
right = left + width and bottom = top + height. -/
theorem getCoordinates_invariant (e : Elem) (ov : Overflown) :
    (e.getCoordinates ov).right
        = (e.getCoordinates ov).left + (e.getCoordinates ov).width
      ∧ (e.getCoordinates ov).bottom
        = (e.getCoordinates ov).top + (e.getCoordinates ov).height :=
  ⟨rfl, rfl⟩

/-- C4: scrollTo's write is immediately visible to getScroll: scrolling
any element to (10, 20) and reading back, with no intervening mutation,
yields x = 10, y = 20. -/
theorem scrollTo_then_getScroll (e : Elem) :
    (e.scrollTo 10 20).getScroll = ⟨some 10, some 20⟩ :=
  rfl

/-- C5: for a node with no offsetParent, getPosition with an empty
container list is just the node's own offsets, absent treated as 0. -/
theorem getPosition_no_parent (e : Elem) (h : e.offsetParent = none) :
    e.getPosition (Overflown.array [])
      = ⟨e.data.offsetLeft.getD 0, e.data.offsetTop.getD 0⟩ := by
  match e, h with
  | .mk d none, _ =>
    simp [getPosition_spec, sumLeft, sumTop, sumScrollX, sumScrollY, Elem.chainObs,
      splat, Elem.data]

/-- C5 witness: the claim instantiated at the concrete root node exRoot. -/
theorem getPosition_no_parent_witness :
    exRoot.getPosition (Overflown.array [])
      = ⟨exRoot.data.offsetLeft.getD 0, exRoot.data.offsetTop.getD 0⟩ :=
  getPosition_no_parent exRoot rfl

/-- C6: appending one extra container scrolled to (5, 5) to the container
list changes the result of getPosition by exactly (-5, -5). -/
theorem getPosition_append_container (e : Elem) (cs : List Elem) (c : Elem)
    (hx : c.data.scrollLeft = some 5) (hy : c.data.scrollTop = some 5) :
    e.getPosition (Overflown.array (cs ++ [c]))
      = ⟨(e.getPosition (Overflown.array cs)).x - 5,
         (e.getPosition (Overflown.array cs)).y - 5⟩ := by
  simp only [getPosition_spec, splat, sumScrollX, sumScrollY, List.map_append,
    List.sum_append, List.map_cons, List.map_nil, List.sum_cons, List.sum_nil,
    hx, hy, Option.getD_some, Point.mk.injEq]
  constructor <;> ring

/-- C6 witness: the claim instantiated at exNode with no prior containers
and the concrete (5, 5) scroller appended. -/
theorem getPosition_append_container_witness :
    exNode.getPosition (Overflown.array ([] ++ [exScroller]))
      = ⟨(exNode.getPosition (Overflown.array [])).x - 5,
         (exNode.getPosition (Overflown.array [])).y - 5⟩ :=
  getPosition_append_container exNode [] exScroller rfl rfl

/-- C7: getPosition is a pure, deterministic observation: the threaded
host state after a call is the input state (no mutation), a second call on
that state returns the same point, and the result is a function of the
offset attributes read along the chain — two trees with equal chain
observations yield equal points under the same container argument. -/
theorem getPosition_pure :
    (∀ (e : Elem) (ov : Overflown),
        (e.getPositionTrace ov).2 = e
          ∧ ((e.getPositionTrace ov).2.getPositionTrace ov).1
            = (e.getPositionTrace ov).1)
    ∧ (∀ (a b : Elem) (ov : Overflown),
        a.chainObs = b.chainObs → a.getPosition ov = b.getPosition ov) := by
  constructor
  · intro e ov
    exact ⟨rfl, rfl⟩
  · intro a b ov h
    simp [getPosition_spec, sumLeft, sumTop, h]

/-- C7 witness: exRoot and exRoot2 differ in scroll state but have equal
chain observations, and getPosition agrees on them. -/
theorem getPosition_pure_witness :
    exRoot.getPosition Overflown.absent = exRoot2.getPosition Overflown.absent :=
  getPosition_pure.2 exRoot exRoot2 Overflown.absent (by decide)

/-- C8: a single container reference is splatted to a one-element array
and an absent argument to the empty array, so getPosition returns the same
point in either presentation. -/
theorem getPosition_splat_single (e c : Elem) :
    e.getPosition (Overflown.single c) = e.getPosition (Overflown.array [c])
      ∧ e.getPosition Overflown.absent = e.getPosition (Overflown.array []) :=
  ⟨rfl, rfl⟩

/-- C9: the ancestor-walking loop of getPosition terminates on every
element of the (structurally finite and acyclic) layout tree: with fuel at
least the chain depth, the small-step iteration never exhausts its fuel
and produces exactly the walk's result. -/
theorem posStep_terminates : ∀ (fuel : Nat) (e : Elem) (l t : Int),
    e.depth ≤ fuel → posStep fuel e l t = some (posLoop e l t)
  | fuel, .mk d none, l, t, _ => by
    simp [posStep, posLoop]
  | fuel + 1, .mk d (some p), l, t, h => by
    have hp : p.depth ≤ fuel := by
      have hd : p.depth + 1 ≤ fuel + 1 := by simpa [Elem.depth] using h
      omega
    have ih := posStep_terminates fuel p (l + d.offsetLeft.getD 0)
      (t + d.offsetTop.getD 0) hp
    simp [posStep, posLoop, ih]
  | 0, .mk d (some p), l, t, h => by
    exact absurd h (by simp [Elem.depth])

/-- C9 witness: the loop at the three-level chain exNode, whose depth is
2, with fuel 2. -/
theorem posStep_terminates_witness :
    posStep 2 exNode 0 0 = some (posLoop exNode 0 0) :=
  posStep_terminates 2 exNode 0 0 (by decide)

/-- C10: getPosition's result is invariant under permutation of the
container list, and a container listed twice has its scroll offsets
subtracted twice (no deduplication). -/
theorem getPosition_perm_dup :
    (∀ (e : Elem) (cs cs2 : List Elem), cs.Perm cs2 →
        e.getPosition (Overflown.array cs) = e.getPosition (Overflown.array cs2))
    ∧ (∀ (e c : Elem) (cs : List Elem),
        e.getPosition (Overflown.array (c :: c :: cs))
          = ⟨(e.getPosition (Overflown.array (c :: cs))).x - c.data.scrollLeft.getD 0,
             (e.getPosition (Overflown.array (c :: cs))).y - c.data.scrollTop.getD 0⟩) := by
  constructor
  · intro e cs cs2 hperm
    have hx : sumScrollX cs = sumScrollX cs2 := (hperm.map _).sum_eq
    have hy : sumScrollY cs = sumScrollY cs2 := (hperm.map _).sum_eq
    simp [getPosition_spec, splat, hx, hy]
  · intro e c cs
    simp only [getPosition_spec, splat, sumScrollX, sumScrollY, List.map_cons,
      List.sum_cons, Point.mk.injEq]
    constructor <;> ring

/-- C10 witness: swapping the two containers of a concrete two-element
list leaves the result of getPosition unchanged. -/
theorem getPosition_perm_dup_witness :
    exNode.getPosition (Overflown.array [exScroller, exRoot2])
      = exNode.getPosition (Overflown.array [exRoot2, exScroller]) :=
  getPosition_perm_dup.1 exNode [exScroller, exRoot2] [exRoot2, exScroller]
    (List.Perm.swap exRoot2 exScroller [])

end ElementDimensions
